import Mathlib

/-!
Verification development for the fleet-tracker backend's real-time
distribution subsystem (WebSocket hub, poller, connection lifecycle).

The definitions below are a shallow embedding of the Go sources:
* the current hub lives in src/unnamed/part_009 (package websocket:
  Hub, NewHub, Hub.Run, Hub.pollUpdates, Hub.HandleWebSocket);
* the legacy hub lives in src/internal/websocket/hub.go (first file:
  Hub, NewHub, Hub.HandleWebSocket, Hub.Run over a chan models.Vehicle);
* the data model lives in src/internal/models (vehicles.go).

Conventions: a `*websocket.Conn` pointer is modelled as a natural-number
handle; Go `float64` fields are modelled as exact rationals (the hub never
computes with them, it only forwards values); `time.Time` is modelled as an
integer timestamp; a fallible call returns `Except String _`.  Whether a
`WriteJSON` call on a given connection succeeds is a parameter of the
model (a `Conn → _ → Bool` oracle), since it depends on the peer.
-/

namespace FleetTracker

/-- Model of Go `float64` struct fields: the hub only forwards these values,
never computes with them, so exact rationals are used. -/
abbrev GoFloat64 := Rat

/-- Model of `time.Time`: an integer timestamp. -/
abbrev GoTime := Int

/-- Model of `models.Measurement` (src/unnamed/part_002): OneStepGPS's
standard measurement format with value, unit and display string. -/
structure Measurement where
  Value : GoFloat64
  Unit : String
  Display : String
deriving DecidableEq

/-- Model of `models.LocationDetail` (src/unnamed/part_002): additional
point information; pointer fields become `Option`. -/
structure LocationDetail where
  Speed : Measurement
  FuelPercent : Option GoFloat64
  EngineOn : Option Bool
  InMotion : Option Bool
deriving DecidableEq

/-- Model of `models.Location` (src/unnamed/part_002): a point-in-time
vehicle location. -/
structure Location where
  Timestamp : GoTime
  Latitude : GoFloat64
  Longitude : GoFloat64
  Altitude : Option GoFloat64
  Heading : Int
  Speed : GoFloat64
  Detail : LocationDetail
deriving DecidableEq

/-- Model of `models.DriveState` (src/unnamed/part_002): the vehicle's
current driving status. -/
structure DriveState where
  Status : String
  StatusID : String
  Distance : Measurement
  BeginTime : GoTime
deriving DecidableEq

/-- Model of `models.Vehicle` (src/unnamed/part_002, OneStepGPS version):
the essential vehicle information broadcast to clients. -/
structure Vehicle where
  DeviceID : String
  DisplayName : String
  ActiveState : String
  Online : Bool
  LastLocation : Option Location
  CurrentDriveState : DriveState
deriving DecidableEq

/-- A published snapshot is the `[]models.Vehicle` slice that `Hub.Run`
receives from the `Broadcast` channel and hands to `WriteJSON` unchanged. -/
abbrev Snapshot := List Vehicle

/-- A `*websocket.Conn` handle, the key type of the hub registry
`clients map[*websocket.Conn]bool`. -/
abbrev Conn := Nat

/-- Capacity of the `Broadcast` channel created by `NewHub`
(src/unnamed/part_009 line 32): `make(chan []models.Vehicle)` is an
unbuffered channel, capacity 0. -/
def broadcastChanCapacity : Nat := 0

/-- Result of one fan-out pass of `Hub.Run`'s inner loop over the registry:
the registry after the pass, the successful `WriteJSON` deliveries in
iteration order, and the connections that were closed and deleted. -/
structure FanoutResult where
  clients : List Conn
  delivered : List (Conn × Snapshot)
  closed : List Conn
deriving DecidableEq

/-- The inner loop of `Hub.Run` (src/unnamed/part_009 lines 55-64): for each
client in `h.clients`, call `client.WriteJSON(vehicles)`; on error, log,
`client.Close()` and `delete(h.clients, client)`.  `writeOk c s` models
whether the write of snapshot `s` on connection `c` returns a nil error.
The per-subscriber state in the registry is only the map entry itself:
there is no outbound queue in the Go `Hub` struct (lines 18-24). -/
def hubFanout (writeOk : Conn → Snapshot → Bool) (s : Snapshot) :
    List Conn → FanoutResult
  | [] => { clients := [], delivered := [], closed := [] }
  | c :: cs =>
    let rest := hubFanout writeOk s cs
    if writeOk c s then
      { clients := c :: rest.clients
        delivered := (c, s) :: rest.delivered
        closed := rest.closed }
    else
      { clients := rest.clients
        delivered := rest.delivered
        closed := c :: rest.closed }

/-- The outer loop of `Hub.Run` (src/unnamed/part_009 lines 52-64):
`for vehicles := range h.Broadcast` applies the fan-out pass to each
published snapshot in order, threading the registry through.  Returns the
final registry and all deliveries in order. -/
def hubRun (writeOk : Conn → Snapshot → Bool) :
    List Snapshot → List Conn → List Conn × List (Conn × Snapshot)
  | [], cs => (cs, [])
  | s :: rest, cs =>
    let r := hubFanout writeOk s cs
    let next := hubRun writeOk rest r.clients
    (next.1, r.delivered ++ next.2)

/-- The snapshots a given connection receives, in order, from a delivery
trace. -/
def receivedBy (c : Conn) (ds : List (Conn × Snapshot)) : List Snapshot :=
  ds.filterMap (fun p => if p.1 = c then some p.2 else none)

/-- Model of `Hub.pollUpdates` (src/unnamed/part_009 lines 68-80) over a
finite trace of tick outcomes: each tick calls `h.gpsClient.GetDevices()`;
on error it logs and `continue`s to the next tick; on success it sends the
vehicles to `h.Broadcast`.  The result is the list of published snapshots.
`Client.GetVehicleUpdates` (src/internal/onestepgps/client.go lines 85-98)
has the same loop body. -/
def pollUpdates : List (Except String Snapshot) → List Snapshot
  | [] => []
  | Except.error _ :: rest => pollUpdates rest
  | Except.ok vehicles :: rest => vehicles :: pollUpdates rest

/-- Observable events of the connection-setup part of `Hub.HandleWebSocket`
(src/unnamed/part_009 lines 84-105), in program order. -/
inductive WsEvent where
  | registered (c : Conn)
  | sentInitial (c : Conn) (s : Snapshot)
  | loggedFetchError (msg : String)
  | loggedWriteError (c : Conn)
deriving DecidableEq

/-- The connection-setup part of `Hub.HandleWebSocket` (src/unnamed/part_009
lines 84-105), after a successful upgrade: register the client
(`h.clients[conn] = true`, a map insert, a no-op on an existing key), then
fetch initial vehicle data with `h.gpsClient.GetDevices()`; on fetch error
only log; otherwise `conn.WriteJSON(vehicles)` and on write error only log.
Returns the registry afterwards and the event trace. -/
def handleWebSocketInit (c : Conn) (clients : List Conn)
    (fetch : Except String Snapshot) (writeOk : Snapshot → Bool) :
    List Conn × List WsEvent :=
  let clients1 := if c ∈ clients then clients else clients ++ [c]
  match fetch with
  | Except.error e => (clients1, [WsEvent.registered c, WsEvent.loggedFetchError e])
  | Except.ok vehicles =>
    if writeOk vehicles then
      (clients1, [WsEvent.registered c, WsEvent.sentInitial c vehicles])
    else
      (clients1, [WsEvent.registered c, WsEvent.loggedWriteError c])

/-- The initial snapshots actually written to the new client in a
`HandleWebSocket` event trace. -/
def initialSends (evs : List WsEvent) : List Snapshot :=
  evs.filterMap (fun e =>
    match e with
    | WsEvent.sentInitial _ s => some s
    | _ => none)

/-- Joint state of the registry and of the set of closed transports, for the
cleanup paths. -/
structure ConnResources where
  clients : List Conn
  closedConns : List Conn
deriving DecidableEq

/-- Model of `conn.Close()`: closing an already-closed connection returns an
error (which both call sites discard) and has no further observable effect,
so the set of closed connections gains `c` at most once. -/
def closeConn (c : Conn) (closed : List Conn) : List Conn :=
  if c ∈ closed then closed else c :: closed

/-- The subscriber-removal step shared by both cleanup paths of the current
hub: `Hub.Run`'s write-error branch does `client.Close()` then
`delete(h.clients, client)` (src/unnamed/part_009 lines 59-62), and
`Hub.HandleWebSocket`'s deferred cleanup does `conn.Close()` then
`delete(h.clients, conn)` (lines 107-112).  `delete` on an absent key is a
no-op. -/
def unregister (c : Conn) (st : ConnResources) : ConnResources :=
  { clients := st.clients.erase c
    closedConns := closeConn c st.closedConns }

/-- The goroutines of the current hub that touch the registry: the single
`Hub.Run` goroutine, and one `HandleWebSocket` goroutine per accepted
connection (net/http serves each request on its own goroutine). -/
inductive HubTask where
  | runLoop : HubTask
  | wsHandler (connId : Nat) : HubTask
deriving DecidableEq

/-- Operations on the registry map `h.clients`. -/
inductive RegistryOp where
  | iterate : RegistryOp
  | insert : RegistryOp
  | erase : RegistryOp
deriving DecidableEq

/-- Registry operations each goroutine performs, read off src/unnamed/part_009:
`Hub.Run` ranges over `h.clients` and deletes entries on write error
(lines 55-62); each `HandleWebSocket` goroutine inserts
`h.clients[conn] = true` (line 93) and deletes the entry in its deferred
cleanup (lines 107-112). -/
def taskRegistryOps : HubTask → List RegistryOp
  | HubTask.runLoop => [RegistryOp.iterate, RegistryOp.erase]
  | HubTask.wsHandler _ => [RegistryOp.insert, RegistryOp.erase]

/-- Number of mutual-exclusion primitives guarding the registry: the `Hub`
struct (src/unnamed/part_009 lines 18-24) holds `clients`, `Broadcast`,
`upgrader`, `gpsClient`, `updateInterval` and nothing else — no
`sync.Mutex`, and no Lock or Unlock call appears anywhere in the file. -/
def hubMutexCount : Nat := 0

end FleetTracker

namespace FleetTracker.Legacy

/-- Model of the legacy `models.Vehicle` (src/unnamed/part_002, first file):
the CRUD-era vehicle entity broadcast one at a time by the legacy hub. -/
structure Vehicle where
  ID : Int
  Name : String
  Status : String
  Latitude : GoFloat64
  Longitude : GoFloat64
  Action : String
deriving DecidableEq

/-- Result of one pass of the legacy hub's fan-out loop. -/
structure FanoutResult where
  clients : List Conn
  delivered : List (Conn × Vehicle)
  closed : List Conn
deriving DecidableEq

/-- The fan-out loop of the legacy `Hub.Run`
(src/internal/websocket/hub.go lines 61-75): on each `vehicle` received
from `h.Broadcast` (a `chan models.Vehicle`), for each client in
`h.clients`, call `client.WriteJSON(vehicle)`; on error, log,
`client.Close()` and `delete(h.clients, client)`. -/
def hubFanout (writeOk : Conn → Vehicle → Bool) (v : Vehicle) :
    List Conn → FanoutResult
  | [] => { clients := [], delivered := [], closed := [] }
  | c :: cs =>
    let rest := hubFanout writeOk v cs
    if writeOk c v then
      { clients := c :: rest.clients
        delivered := (c, v) :: rest.delivered
        closed := rest.closed }
    else
      { clients := rest.clients
        delivered := rest.delivered
        closed := c :: rest.closed }

end FleetTracker.Legacy

namespace FleetTracker

/-! Helper lemmas about the embedded hub operations. -/

theorem hubFanout_clients (w : Conn → Snapshot → Bool) (s : Snapshot) :
    ∀ cs : List Conn, (hubFanout w s cs).clients = cs.filter (fun c => w c s) := by
  intro cs
  induction cs with
  | nil => rfl
  | cons a as ih =>
    by_cases h : w a s <;> simp [hubFanout, h, ih]

theorem hubFanout_closed (w : Conn → Snapshot → Bool) (s : Snapshot) :
    ∀ cs : List Conn, (hubFanout w s cs).closed = cs.filter (fun c => !(w c s)) := by
  intro cs
  induction cs with
  | nil => rfl
  | cons a as ih =>
    by_cases h : w a s <;> simp [hubFanout, h, ih]

theorem hubFanout_delivered (w : Conn → Snapshot → Bool) (s : Snapshot) :
    ∀ cs : List Conn,
      (hubFanout w s cs).delivered = (cs.filter (fun c => w c s)).map (fun c => (c, s)) := by
  intro cs
  induction cs with
  | nil => rfl
  | cons a as ih =>
    by_cases h : w a s <;> simp [hubFanout, h, ih]

theorem receivedBy_append (c : Conn) (l1 l2 : List (Conn × Snapshot)) :
    receivedBy c (l1 ++ l2) = receivedBy c l1 ++ receivedBy c l2 :=
  List.filterMap_append l1 l2 _

theorem receivedBy_cons (c : Conn) (p : Conn × Snapshot) (ds : List (Conn × Snapshot)) :
    receivedBy c (p :: ds) =
      if p.1 = c then p.2 :: receivedBy c ds else receivedBy c ds := by
  by_cases h : p.1 = c <;> simp [receivedBy, h]

theorem receivedBy_fanout (w : Conn → Snapshot → Bool) (s : Snapshot) (c : Conn) :
    ∀ {cs : List Conn}, cs.Nodup →
      receivedBy c (hubFanout w s cs).delivered =
        if c ∈ cs ∧ w c s then [s] else [] := by
  intro cs
  induction cs with
  | nil => intro _; simp [hubFanout, receivedBy]
  | cons a as ih =>
    intro h
    have ha : a ∉ as := (List.nodup_cons.mp h).1
    have h2 : as.Nodup := (List.nodup_cons.mp h).2
    by_cases hw : w a s
    · by_cases hac : a = c
      · subst hac
        have hna : ¬ (a ∈ as ∧ w a s = true) := fun hx => ha hx.1
        have hrest : receivedBy a (hubFanout w s as).delivered = [] := by
          rw [ih h2, if_neg hna]
        simp [hubFanout, hw, receivedBy_cons, hrest]
      · have hca : ¬ c = a := fun hx => hac hx.symm
        simp [hubFanout, hw, receivedBy_cons, ih h2, hac, hca]
    · by_cases hac : a = c
      · subst hac
        have hna : ¬ (a ∈ as ∧ w a s = true) := fun hx => ha hx.1
        simp [hubFanout, hw, receivedBy_cons, ih h2, hna]
      · have hca : ¬ c = a := fun hx => hac hx.symm
        simp [hubFanout, hw, receivedBy_cons, ih h2, hca]

theorem hubRun_clients (w : Conn → Snapshot → Bool) :
    ∀ (snaps : List Snapshot) (cs : List Conn),
      (hubRun w snaps cs).1 = cs.filter (fun c => snaps.all (fun s => w c s)) := by
  intro snaps
  induction snaps with
  | nil => intro cs; simp [hubRun]
  | cons s rest ih =>
    intro cs
    simp only [hubRun, hubFanout_clients, ih, List.filter_filter, List.all_cons]
    exact List.filter_congr fun x _ => by rw [Bool.and_comm]

theorem receivedBy_hubRun (w : Conn → Snapshot → Bool) (c : Conn) :
    ∀ (snaps : List Snapshot) {cs : List Conn}, cs.Nodup →
      receivedBy c (hubRun w snaps cs).2 =
        if c ∈ cs then snaps.takeWhile (fun s => w c s) else [] := by
  intro snaps
  induction snaps with
  | nil =>
    intro cs _
    by_cases h : c ∈ cs <;> simp [hubRun, receivedBy, h]
  | cons s rest ih =>
    intro cs h
    have hnd : (hubFanout w s cs).clients.Nodup := by
      rw [hubFanout_clients]; exact h.filter _
    simp only [hubRun, receivedBy_append, receivedBy_fanout w s c h, ih hnd]
    by_cases hc : c ∈ cs
    · by_cases hw : w c s
      · have hmem : c ∈ (hubFanout w s cs).clients := by
          rw [hubFanout_clients]; exact List.mem_filter.mpr ⟨hc, by simp [hw]⟩
        simp [hc, hw, hmem, List.takeWhile_cons]
      · have hmem : c ∉ (hubFanout w s cs).clients := by
          rw [hubFanout_clients]
          intro hx
          exact hw (by simpa using (List.mem_filter.mp hx).2)
        simp [hc, hw, hmem, List.takeWhile_cons]
    · have hmem : c ∉ (hubFanout w s cs).clients := by
        rw [hubFanout_clients]
        intro hx
        exact hc (List.mem_filter.mp hx).1
      simp [hc, hmem]

theorem handleWebSocketInit_clients (c : Conn) (clients : List Conn)
    (fetch : Except String Snapshot) (writeOk : Snapshot → Bool) :
    (handleWebSocketInit c clients fetch writeOk).1 =
      if c ∈ clients then clients else clients ++ [c] := by
  cases fetch with
  | error e => rfl
  | ok v => by_cases h : writeOk v <;> simp [handleWebSocketInit, h]

theorem filter_beq_of_nodup :
    ∀ {l : List Conn}, l.Nodup → ∀ {b : Conn}, b ∈ l →
      l.filter (fun c => c == b) = [b] := by
  intro l
  induction l with
  | nil => intro _ b hb; cases hb
  | cons a as ih =>
    intro hnd b hb
    have ha : a ∉ as := (List.nodup_cons.mp hnd).1
    have h2 : as.Nodup := (List.nodup_cons.mp hnd).2
    by_cases hab : a = b
    · subst hab
      have hnil : as.filter (fun c => c == a) = [] :=
        List.filter_eq_nil_iff.mpr (fun c hc => by
          simp only [beq_iff_eq]
          intro hx
          exact ha (hx ▸ hc))
      simp [hnil]
    · have hb2 : b ∈ as := by
        cases List.mem_cons.mp hb with
        | inl h => exact absurd h.symm hab
        | inr h => exact h
      simp [hab, ih h2 hb2]

theorem pollUpdates_append_errors :
    ∀ (errs rest : List (Except String Snapshot)), (∀ x ∈ errs, x.isOk = false) →
      pollUpdates (errs ++ rest) = pollUpdates rest := by
  intro errs
  induction errs with
  | nil => intro rest _; rfl
  | cons x xs ih =>
    intro rest h
    cases x with
    | error m =>
      simpa [pollUpdates] using ih rest (fun y hy => h y (List.mem_cons_of_mem _ hy))
    | ok v2 =>
      have hx := h (Except.ok v2) (List.mem_cons_self _ _)
      simp [Except.isOk, Except.toBool] at hx

theorem pollUpdates_eq_filterMap :
    ∀ l : List (Except String Snapshot), pollUpdates l = l.filterMap Except.toOption := by
  intro l
  induction l with
  | nil => rfl
  | cons x xs ih => cases x <;> simp [pollUpdates, Except.toOption, ih]

theorem legacy_hubFanout_clients (w : Conn → Legacy.Vehicle → Bool) (v : Legacy.Vehicle) :
    ∀ cs : List Conn, (Legacy.hubFanout w v cs).clients = cs.filter (fun c => w c v) := by
  intro cs
  induction cs with
  | nil => rfl
  | cons a as ih =>
    by_cases h : w a v <;> simp [Legacy.hubFanout, h, ih]

theorem legacy_hubFanout_closed (w : Conn → Legacy.Vehicle → Bool) (v : Legacy.Vehicle) :
    ∀ cs : List Conn, (Legacy.hubFanout w v cs).closed = cs.filter (fun c => !(w c v)) := by
  intro cs
  induction cs with
  | nil => rfl
  | cons a as ih =>
    by_cases h : w a v <;> simp [Legacy.hubFanout, h, ih]

theorem legacy_hubFanout_delivered (w : Conn → Legacy.Vehicle → Bool) (v : Legacy.Vehicle) :
    ∀ cs : List Conn,
      (Legacy.hubFanout w v cs).delivered
        = (cs.filter (fun c => w c v)).map (fun c => (c, v)) := by
  intro cs
  induction cs with
  | nil => rfl
  | cons a as ih =>
    by_cases h : w a v <;> simp [Legacy.hubFanout, h, ih]

/-! Claim theorems. -/

/-- Claim C1: the claim's drop-and-evict mechanism does not exist in the
code.  The `Hub` struct carries no per-subscriber outbound queue (the
registry value type is `bool`), the `Broadcast` channel made by `NewHub` is
unbuffered (capacity 0), and during fan-out a subscriber is closed and
removed exactly when its synchronous `WriteJSON` call fails — there is no
queue-overflow eviction condition anywhere in the fan-out. -/
theorem C1_eviction_only_on_write_error :
    broadcastChanCapacity = 0 ∧
    ∀ (w : Conn → Snapshot → Bool) (s : Snapshot) (cs : List Conn) (c : Conn),
      c ∈ (hubFanout w s cs).closed ↔ c ∈ cs ∧ w c s = false := by
  refine ⟨rfl, ?_⟩
  intro w s cs c
  rw [hubFanout_closed]
  simp [List.mem_filter]

/-- Claim C2: the registry map `h.clients` is accessed by more than one
goroutine — the `Run` loop iterates it and erases entries, and every
`HandleWebSocket` goroutine inserts and erases entries — while the `Hub`
holds zero mutual-exclusion primitives, so registry access is neither
owned by a single task nor protected by a mutex. -/
theorem C2_registry_access_unprotected :
    hubMutexCount = 0 ∧
    taskRegistryOps HubTask.runLoop ≠ [] ∧
    taskRegistryOps (HubTask.wsHandler 0) ≠ [] ∧
    HubTask.runLoop ≠ HubTask.wsHandler 0 := by
  refine ⟨rfl, ?_, ?_, ?_⟩ <;> simp [taskRegistryOps]

/-- Claim C3: a subscriber registered before the first publish whose writes
all succeed (never evicted) receives all published snapshots in publish
order and is still registered afterwards; and in general what a subscriber
receives is an in-order sublist of the published sequence, so two snapshots
published in order are received in that order (per-subscriber FIFO). -/
theorem C3_fifo_complete_delivery (w : Conn → Snapshot → Bool) (c : Conn)
    (snaps : List Snapshot) (cs : List Conn) (hnd : cs.Nodup) (hc : c ∈ cs) :
    (receivedBy c (hubRun w snaps cs).2).Sublist snaps ∧
    ((∀ s ∈ snaps, w c s = true) →
      receivedBy c (hubRun w snaps cs).2 = snaps ∧ c ∈ (hubRun w snaps cs).1) := by
  rw [receivedBy_hubRun w c snaps hnd, if_pos hc]
  refine ⟨List.takeWhile_sublist _, ?_⟩
  intro hall
  constructor
  · exact List.takeWhile_eq_self_iff.mpr hall
  · rw [hubRun_clients]
    exact List.mem_filter.mpr ⟨hc, by simpa [List.all_eq_true] using hall⟩

/-- Witness for C3 at a concrete input: one subscriber, one snapshot, all
writes succeeding. -/
theorem C3_fifo_complete_delivery_witness :
    ([0] : List Conn).Nodup ∧ (0 : Conn) ∈ ([0] : List Conn) ∧
    ((receivedBy 0 (hubRun (fun _ _ => true) [[]] [0]).2).Sublist [[]] ∧
     ((∀ s ∈ [([] : Snapshot)], (fun (_ : Conn) (_ : Snapshot) => true) 0 s = true) →
       receivedBy 0 (hubRun (fun _ _ => true) [[]] [0]).2 = [[]] ∧
       (0 : Conn) ∈ (hubRun (fun _ _ => true) [[]] [0]).1)) :=
  ⟨by decide, by decide,
    C3_fifo_complete_delivery (fun _ _ => true) 0 [[]] [0] (by decide) (by decide)⟩

/-- Claim C4: a failed fetch publishes nothing for that tick and the loop
continues: a failure followed by a success publishes exactly the successful
snapshot next, any finite run of failed fetches is skipped without stopping
the loop, and overall the published snapshots are exactly the successful
fetch results in order. -/
theorem C4_poll_skips_failures (e : String) (v : Snapshot)
    (errs rest : List (Except String Snapshot))
    (herr : ∀ x ∈ errs, x.isOk = false) :
    pollUpdates (Except.error e :: Except.ok v :: rest) = v :: pollUpdates rest ∧
    pollUpdates (errs ++ rest) = pollUpdates rest ∧
    pollUpdates rest = rest.filterMap Except.toOption :=
  ⟨rfl, pollUpdates_append_errors errs rest herr, pollUpdates_eq_filterMap rest⟩

/-- Witness for C4 at a concrete input: one failed tick, then one successful
tick. -/
theorem C4_poll_skips_failures_witness :
    (∀ x ∈ [(Except.error "boom" : Except String Snapshot)], x.isOk = false) ∧
    (pollUpdates (Except.error "tick1" :: Except.ok [] :: []) = [] :: pollUpdates [] ∧
     pollUpdates ([Except.error "boom"] ++ []) = pollUpdates [] ∧
     pollUpdates [] = ([] : List (Except String Snapshot)).filterMap Except.toOption) :=
  ⟨by decide, C4_poll_skips_failures "tick1" [] [Except.error "boom"] [] (by decide)⟩

/-- Claim C5: when exactly one registered subscriber's transport write fails
during a fan-out, precisely that subscriber is closed and removed from the
registry, every other registered subscriber receives the snapshot, and the
broadcast loop then continues processing subsequent snapshots with the
surviving registry. -/
theorem C5_write_failure_isolated (w : Conn → Snapshot → Bool) (s : Snapshot)
    (cs : List Conn) (b : Conn) (hnd : cs.Nodup) (hb : b ∈ cs)
    (hfail : w b s = false) (hok : ∀ c ∈ cs, c ≠ b → w c s = true) :
    (hubFanout w s cs).closed = [b] ∧
    (∀ c ∈ cs, c ≠ b → (c, s) ∈ (hubFanout w s cs).delivered) ∧
    (hubFanout w s cs).clients = cs.erase b ∧
    (∀ rest, hubRun w (s :: rest) cs =
      ((hubRun w rest (cs.erase b)).1,
        (hubFanout w s cs).delivered ++ (hubRun w rest (cs.erase b)).2)) := by
  have hcl : (hubFanout w s cs).clients = cs.erase b := by
    rw [hubFanout_clients, hnd.erase_eq_filter b]
    refine List.filter_congr ?_
    intro c hc
    by_cases hcb : c = b
    · subst hcb; simp [hfail]
    · simp [hok c hc hcb, hcb]
  refine ⟨?_, ?_, hcl, ?_⟩
  · rw [hubFanout_closed]
    rw [show cs.filter (fun c => !(w c s)) = cs.filter (fun c => c == b) from ?_]
    · exact filter_beq_of_nodup hnd hb
    · refine List.filter_congr ?_
      intro c hc
      by_cases hcb : c = b
      · subst hcb; simp [hfail]
      · simp [hok c hc hcb, hcb]
  · intro c hc hcb
    rw [hubFanout_delivered]
    exact List.mem_map.mpr
      ⟨c, List.mem_filter.mpr ⟨hc, by simp [hok c hc hcb]⟩, rfl⟩
  · intro rest
    simp [hubRun, hcl]

/-- Witness for C5 at a concrete input: clients 0 and 1, the write to
client 1 fails, the write to client 0 succeeds. -/
theorem C5_write_failure_isolated_witness :
    ([0, 1] : List Conn).Nodup ∧ (1 : Conn) ∈ ([0, 1] : List Conn) ∧
    (fun (c : Conn) (_ : Snapshot) => c == 0) 1 [] = false ∧
    ((hubFanout (fun c _ => c == 0) [] [0, 1]).closed = [1] ∧
     (∀ c ∈ ([0, 1] : List Conn), c ≠ 1 →
        (c, ([] : Snapshot)) ∈ (hubFanout (fun c _ => c == 0) [] [0, 1]).delivered) ∧
     (hubFanout (fun c _ => c == 0) [] [0, 1]).clients = ([0, 1] : List Conn).erase 1 ∧
     (∀ rest, hubRun (fun c _ => c == 0) ([] :: rest) [0, 1] =
       ((hubRun (fun c _ => c == 0) rest (([0, 1] : List Conn).erase 1)).1,
         (hubFanout (fun c _ => c == 0) [] [0, 1]).delivered ++
           (hubRun (fun c _ => c == 0) rest (([0, 1] : List Conn).erase 1)).2))) :=
  ⟨by decide, by decide, by decide,
    C5_write_failure_isolated (fun c _ => c == 0) [] [0, 1] 1
      (by decide) (by decide) (by decide) (by decide)⟩

/-- Claim C6: the removal step shared by both cleanup paths (close the
transport, delete the registry entry) is idempotent: running it twice
equals running it once, the transport ends up in the closed set exactly
once, and removal of an already-removed subscriber leaves the registry
unchanged. -/
theorem C6_unregister_idempotent (c : Conn) (st : ConnResources)
    (hnd : st.clients.Nodup) (hcl : c ∉ st.closedConns) :
    unregister c (unregister c st) = unregister c st ∧
    (unregister c st).closedConns.count c = 1 ∧
    (c ∉ st.clients → (unregister c st).clients = st.clients) := by
  have hmemclosed : c ∈ closeConn c st.closedConns := by
    unfold closeConn
    by_cases h : c ∈ st.closedConns <;> simp [h]
  refine ⟨?_, ?_, fun h => List.erase_of_not_mem h⟩
  · simp only [unregister]
    congr 1
    · exact List.erase_of_not_mem hnd.not_mem_erase
    · exact if_pos hmemclosed
  · simp [unregister, closeConn, hcl, List.count_cons_self,
      List.count_eq_zero_of_not_mem hcl]

/-- Witness for C6 at a concrete input: registry [0, 1], nothing closed yet,
removing connection 0. -/
theorem C6_unregister_idempotent_witness :
    (([0, 1] : List Conn).Nodup ∧ (0 : Conn) ∉ ([] : List Conn)) ∧
    (unregister 0 (unregister 0 ⟨[0, 1], []⟩) = unregister 0 ⟨[0, 1], []⟩ ∧
     (unregister 0 (⟨[0, 1], []⟩ : ConnResources)).closedConns.count 0 = 1 ∧
     ((0 : Conn) ∉ ([0, 1] : List Conn) →
       (unregister 0 (⟨[0, 1], []⟩ : ConnResources)).clients = [0, 1])) :=
  ⟨⟨by decide, by decide⟩,
    C6_unregister_idempotent 0 ⟨[0, 1], []⟩ (by decide) (by decide)⟩

/-- Claim C7 as stated is false on the code: it requires that every new
connection be sent exactly one initial snapshot, but when the synchronous
initial fetch fails, `HandleWebSocket` only logs the error and sends
nothing.  Concrete input: connection 0, empty registry, fetch returning an
error, write oracle always succeeding. -/
theorem C7_counterexample :
    (initialSends (handleWebSocketInit 0 [] (Except.error "fetch failed")
        (fun _ => true)).2).length ≠ 1 := by
  decide

/-- Claim C7 (amended): for every new connection, the subscriber is first
registered (the registration is the first observable event, and it is in
the registry afterwards); then, when the synchronous initial fetch
succeeds and the initial write succeeds, exactly that one fetched snapshot
(not a queued one) is written to it; on fetch or write failure no initial
snapshot is delivered. -/
theorem C7_register_then_initial_push (c : Conn) (clients : List Conn)
    (fetch : Except String Snapshot) (wOk : Snapshot → Bool) :
    ((handleWebSocketInit c clients fetch wOk).2).head? =
      some (WsEvent.registered c) ∧
    c ∈ (handleWebSocketInit c clients fetch wOk).1 ∧
    initialSends (handleWebSocketInit c clients fetch wOk).2 =
      (match fetch with
       | Except.ok s => if wOk s then [s] else []
       | Except.error _ => []) := by
  have hmem : c ∈ (handleWebSocketInit c clients fetch wOk).1 := by
    rw [handleWebSocketInit_clients]
    by_cases h : c ∈ clients <;> simp [h]
  cases fetch with
  | error e => exact ⟨rfl, hmem, rfl⟩
  | ok v =>
    by_cases h : wOk v
    · refine ⟨?_, hmem, ?_⟩ <;> simp [handleWebSocketInit, initialSends, h]
    · refine ⟨?_, hmem, ?_⟩ <;> simp [handleWebSocketInit, initialSends, h]

/-- Claim C8: fan-out forwards each published snapshot whole and unchanged —
every delivered message equals the published snapshot (the hub never diffs
two snapshots or builds a partial one), and per fan-out each subscriber
receives either that one complete snapshot or nothing. -/
theorem C8_whole_snapshot_or_nothing (w : Conn → Snapshot → Bool)
    (s : Snapshot) (cs : List Conn) (c : Conn) (hnd : cs.Nodup) :
    (∀ p ∈ (hubFanout w s cs).delivered, p.2 = s) ∧
    (receivedBy c (hubFanout w s cs).delivered = [s] ∨
     receivedBy c (hubFanout w s cs).delivered = []) := by
  constructor
  · intro p hp
    rw [hubFanout_delivered] at hp
    obtain ⟨x, _, rfl⟩ := List.mem_map.mp hp
    rfl
  · rw [receivedBy_fanout w s c hnd]
    by_cases h : c ∈ cs ∧ w c s <;> simp [h]

/-- Witness for C8 at a concrete input: clients 0 and 1, write succeeding
only on client 0. -/
theorem C8_whole_snapshot_or_nothing_witness :
    ([0, 1] : List Conn).Nodup ∧
    ((∀ p ∈ (hubFanout (fun c _ => c == 0) [] [0, 1]).delivered, p.2 = ([] : Snapshot)) ∧
     (receivedBy 1 (hubFanout (fun c _ => c == 0) [] [0, 1]).delivered = [([] : Snapshot)] ∨
      receivedBy 1 (hubFanout (fun c _ => c == 0) [] [0, 1]).delivered = [])) :=
  ⟨by decide, C8_whole_snapshot_or_nothing (fun c _ => c == 0) [] [0, 1] 1 (by decide)⟩

/-- Claim C9: for a new connection whose synchronous initial fetch fails or
whose initial write fails, the failure is only logged: no initial snapshot
is delivered, the subscriber remains in the registry, and it still receives
every subsequently broadcast snapshot (all writes to it succeeding). -/
theorem C9_initial_failure_not_terminal (c : Conn) (clients : List Conn)
    (fetch : Except String Snapshot) (wOk : Snapshot → Bool)
    (w : Conn → Snapshot → Bool) (snaps : List Snapshot)
    (hnd : clients.Nodup)
    (hfail : fetch.isOk = false ∨ ∃ v, fetch = Except.ok v ∧ wOk v = false)
    (hw : ∀ s ∈ snaps, w c s = true) :
    initialSends (handleWebSocketInit c clients fetch wOk).2 = [] ∧
    c ∈ (handleWebSocketInit c clients fetch wOk).1 ∧
    receivedBy c (hubRun w snaps (handleWebSocketInit c clients fetch wOk).1).2
      = snaps := by
  have hreg := handleWebSocketInit_clients c clients fetch wOk
  have hmem : c ∈ (handleWebSocketInit c clients fetch wOk).1 := by
    rw [hreg]; by_cases h : c ∈ clients <;> simp [h]
  have hnd2 : ((handleWebSocketInit c clients fetch wOk).1).Nodup := by
    rw [hreg]
    by_cases h : c ∈ clients
    · simpa [h] using hnd
    · simp [h, List.nodup_append, hnd]
  refine ⟨?_, hmem, ?_⟩
  · cases fetch with
    | error e => rfl
    | ok v =>
      rcases hfail with hf | ⟨v2, hv2, hw2⟩
      · simp [Except.isOk, Except.toBool] at hf
      · injection hv2 with hv
        subst hv
        simp [handleWebSocketInit, initialSends, hw2]
  · rw [receivedBy_hubRun w c snaps hnd2, if_pos hmem]
    exact List.takeWhile_eq_self_iff.mpr hw

/-- Witness for C9 at a concrete input: connection 0, empty registry, a
failing initial fetch, one subsequent snapshot whose write succeeds. -/
theorem C9_initial_failure_not_terminal_witness :
    (([] : List Conn).Nodup ∧
     ((Except.error "boom" : Except String Snapshot).isOk = false ∨
      ∃ v, (Except.error "boom" : Except String Snapshot) = Except.ok v ∧
        (fun (_ : Snapshot) => true) v = false) ∧
     (∀ s ∈ [([] : Snapshot)], (fun (_ : Conn) (_ : Snapshot) => true) 0 s = true)) ∧
    (initialSends (handleWebSocketInit 0 [] (Except.error "boom")
        (fun _ => true)).2 = [] ∧
     (0 : Conn) ∈ (handleWebSocketInit 0 [] (Except.error "boom") (fun _ => true)).1 ∧
     receivedBy 0 (hubRun (fun _ _ => true) [[]]
        (handleWebSocketInit 0 [] (Except.error "boom") (fun _ => true)).1).2 = [[]]) :=
  ⟨⟨by decide, Or.inl (by decide), by decide⟩,
    C9_initial_failure_not_terminal 0 [] (Except.error "boom") (fun _ => true)
      (fun _ _ => true) [[]] (by decide) (Or.inl (by decide)) (by decide)⟩

/-- Claim C10: under the same per-client write outcomes, the legacy hub's
broadcast pass (src/internal/websocket/hub.go) and the current hub's
broadcast pass (src/unnamed/part_009) are the same registry transformer:
both keep exactly the clients whose write succeeded, close exactly those
whose write failed, and deliver the message to every kept client. -/
theorem C10_legacy_current_equivalence (fail : Conn → Bool)
    (v : Legacy.Vehicle) (s : Snapshot) (cs : List Conn) :
    (Legacy.hubFanout (fun c _ => !(fail c)) v cs).clients =
      (hubFanout (fun c _ => !(fail c)) s cs).clients ∧
    (Legacy.hubFanout (fun c _ => !(fail c)) v cs).closed =
      (hubFanout (fun c _ => !(fail c)) s cs).closed ∧
    (hubFanout (fun c _ => !(fail c)) s cs).clients =
      cs.filter (fun c => !(fail c)) ∧
    (hubFanout (fun c _ => !(fail c)) s cs).closed = cs.filter fail ∧
    (Legacy.hubFanout (fun c _ => !(fail c)) v cs).delivered =
      (cs.filter (fun c => !(fail c))).map (fun c => (c, v)) := by
  refine ⟨?_, ?_, ?_, ?_, ?_⟩
  · rw [legacy_hubFanout_clients, hubFanout_clients]
  · rw [legacy_hubFanout_closed, hubFanout_closed]
  · rw [hubFanout_clients]
  · rw [hubFanout_closed]
    exact List.filter_congr fun c _ => by simp
  · rw [legacy_hubFanout_delivered]
